import Mathlib

/-
  Verification of the environment-orchestration core of repopal
  (src/repopal/services/environment_manager.py), shallowly embedded.

  External systems (the docker engine, git, the filesystem) are modelled by
  an explicit oracle (`World`, `GitRepo`) whose responses drive the embedded
  methods; a response of `Except.error e` models that external call raising
  the exception `e`.  Every method additionally returns the list of external
  side effects it performed (`Effect`), so that claims about side effects
  ("performs no side effect", "does not rebuild the image") are provable.
-/

namespace Repopal

/-- Exception values, as caught by Python `except` clauses.  The payload is
the text `str(e)` would produce. -/
inductive Exn where
  | valueError (msg : String)
  | dockerError (msg : String)
  | gitError (msg : String)
  | ioError (msg : String)
  deriving DecidableEq, Repr

/-- Python `str(e)`: the message carried by the exception. -/
def Exn.str : Exn → String
  | .valueError m => m
  | .dockerError m => m
  | .gitError m => m
  | .ioError m => m

/-- Modelled from the spec: TrackedChange schema (repopal/schemas/changes.py
is not under src/): a change to a tracked file, as a path and the diff text
against the last commit. -/
structure TrackedChange where
  path : String
  diff : String
  deriving DecidableEq, Repr

/-- Modelled from the spec: UntrackedChange schema (repopal/schemas/changes.py
is not under src/): an untracked file, as a path and its full content. -/
structure UntrackedChange where
  path : String
  content : String
  deriving DecidableEq, Repr

/-- Modelled from the spec: RepositoryChanges schema (repopal/schemas/changes.py
is not under src/): ordered tracked changes and ordered untracked changes. -/
structure RepositoryChanges where
  tracked_changes : List TrackedChange
  untracked_changes : List UntrackedChange
  deriving DecidableEq, Repr

/-- Modelled from the spec: CommandResult schema (repopal/schemas/command.py is
not under src/): success flag, message, optional exit code, optional output,
optional error text, a RepositoryChanges value and an auxiliary string-keyed
data mapping (an association list here).  The optional fields default to
`none` when a construction site omits them, as pydantic optional fields do. -/
structure CommandResult where
  success : Bool
  message : String
  exit_code : Option Int
  output : Option String
  error : Option String
  changes : RepositoryChanges
  data : List (String × String)
  deriving DecidableEq, Repr

/-- Modelled from the spec: EnvironmentConfig schema (repopal/schemas/environment.py
is not under src/): a mapping of environment-variable name to value. -/
structure EnvironmentConfig where
  environment_vars : List (String × String)

/-- Command metadata (src/repopal/services/commands/base.py): name,
description, documentation. -/
structure CommandMetadata where
  name : String
  description : String
  documentation : String
  deriving DecidableEq, Repr

/-- Argument mapping passed to a command. -/
abbrev Args := List (String × String)

/-- Command descriptor (src/repopal/services/commands/base.py): metadata, the
Dockerfile text, and `get_execution_command`, which resolves the shell command
from the arguments and may raise. -/
structure Command where
  metadata : CommandMetadata
  dockerfile : String
  get_execution_command : Args → Except Exn String

/-- Handle to a docker container, as returned by `containers.run`. -/
structure Container where
  name : String
  deriving DecidableEq, Repr

/-- External side effects the manager performs, in order. -/
inductive Effect where
  | writeDockerfile (text : String)
  | buildImage
  | runContainer (name : String) (env : List (String × String))
  | containerReload
  | containerStart
  | containerExec (cmd : List String)
  | openRepo (dir : String)
  | readFile (path : String)
  | logWarning (msg : String)
  | logInfo (msg : String)
  | containerStop
  | containerRemove
  | rmtree (dir : String)
  deriving DecidableEq, Repr

/-- View of the git repository (the gitpython `Repo` of the working
directory) at extraction time: `diff_index` holds the `a_path` of each entry
of `repo.index.diff(None)`, `diff_head` those of `repo.index.diff('HEAD')`,
`git_diff_head p` is `repo.git.diff('HEAD', '--', p)`, and `read_file` is
the outcome of opening and reading a file under the working directory. -/
structure GitRepo where
  is_dirty : Bool
  diff_index : List String
  diff_head : List String
  git_diff_head : String → String
  untracked_files : List String
  read_file : String → Except Exn String

/-- Responses of the external world to the calls the manager makes:
`build` for `images.build`, `runContainer` for `containers.run`, `status`
for the container status observed after `reload()`, `start` for
`container.start()`, `execRun` for `container.exec_run` (exit code and raw
output), `gitOpen` for constructing the `git.Repo` view, `stop` for
`container.stop()`, `remove` for `container.remove()`, and `rmtree` for
`shutil.rmtree`.  An `Except.error` response models that call raising. -/
structure World where
  build : Except Exn String
  runContainer : Except Exn Container
  status : String
  start : Except Exn Unit
  execRun : List String → Except Exn (Int × String)
  gitOpen : Except Exn GitRepo
  stop : Except Exn Unit
  remove : Except Exn Unit
  rmtree : Except Exn Unit

/-- State of an EnvironmentManager instance: the two instance fields
`work_dir` and `container` (src lines 28 to 29).  `docker_client` and
`logger` are stateless handles to the external world and are represented by
`World` and the log effects. -/
structure EnvironmentManager where
  work_dir : Option String
  container : Option Container
  deriving DecidableEq, Repr

/-- Fresh manager as built by `__init__`: no working directory, no
container. -/
def freshManager : EnvironmentManager := ⟨none, none⟩

/-- Empty RepositoryChanges value. -/
def emptyChanges : RepositoryChanges := ⟨[], []⟩

/-- Models `bytes.decode("utf-8")` on the exec output; byte strings are
abstracted as Lean strings, so decoding is the identity embedding. -/
def decodeUtf8 (b : String) : String := b

/-- Deduplication worker: keeps the first occurrence of each path, skipping
paths already seen. -/
def dedupPathsAux (seen : List String) : List String → List String
  | [] => []
  | p :: rest =>
    if p ∈ seen then dedupPathsAux seen rest
    else p :: dedupPathsAux (p :: seen) rest

/-- Models the `set(...)` deduplication of changed paths (src line 83).
Python set iteration order is unspecified; it is modelled as first-occurrence
order, which the spec notes is not semantically meaningful. -/
def dedupPaths (l : List String) : List String := dedupPathsAux [] l

/-- Embedding of `EnvironmentManager.setup_container` (src lines 32 to 62).
Raises ValueError when no working directory is set, performing no side
effect; otherwise writes the Dockerfile into a temporary build context,
builds the image, and runs a detached container named after the command,
recording it in the `container` field.  The docker build and run calls may
raise, in which case the field is not assigned. -/
def setup_container (w : World) (st : EnvironmentManager) (command : Command)
    (environment : Option (List (String × String))) :
    Except Exn Unit × EnvironmentManager × List Effect :=
  match st.work_dir with
  | none =>
    (Except.error (Exn.valueError
      "Working directory not set up. Call git_repo_manager.clone_repo first."),
     st, [])
  | some _ =>
    let tr0 := [Effect.writeDockerfile command.dockerfile]
    match w.build with
    | .error e => (.error e, st, tr0 ++ [Effect.buildImage])
    | .ok _ =>
      let container_name := "repopal-" ++ command.metadata.name
      match w.runContainer with
      | .error e =>
        (.error e, st,
         tr0 ++ [Effect.buildImage,
                 Effect.runContainer container_name (environment.getD [])])
      | .ok c =>
        (.ok (), { st with container := some c },
         tr0 ++ [Effect.buildImage,
                 Effect.runContainer container_name (environment.getD [])])

/-- Embedding of `EnvironmentManager.get_repository_changes` (src lines 64
to 107).  Returns empty changes when no working directory is set; otherwise
opens the repo, collects tracked changes (when dirty: the deduplicated union
of paths changed against the index and against HEAD, keeping those with a
non-empty diff against HEAD) and untracked changes (each untracked file with
its content; a file whose read raises is skipped with a logged warning). -/
def get_repository_changes (w : World) (st : EnvironmentManager) :
    Except Exn RepositoryChanges × List Effect :=
  match st.work_dir with
  | none => (.ok emptyChanges, [])
  | some work_dir =>
    match w.gitOpen with
    | .error e => (.error e, [Effect.openRepo work_dir])
    | .ok repo =>
      let tracked_changes : List TrackedChange :=
        if repo.is_dirty then
          let changed_files := repo.diff_index ++ repo.diff_head
          (dedupPaths changed_files).filterMap fun file_path =>
            let diff := repo.git_diff_head file_path
            if diff ≠ "" then some ⟨file_path, diff⟩ else none
        else []
      let reads := repo.untracked_files.map fun file_path =>
        (file_path, repo.read_file file_path)
      let untracked_changes : List UntrackedChange := reads.filterMap fun pr =>
        match pr.2 with
        | .ok content => some ⟨pr.1, content⟩
        | .error _ => none
      let read_trace : List Effect := reads.flatMap fun pr =>
        match pr.2 with
        | .ok _ => [Effect.readFile pr.1]
        | .error e =>
          [Effect.readFile pr.1,
           Effect.logWarning
             ("Could not read untracked file " ++ pr.1 ++ ": " ++ e.str)]
      (.ok ⟨tracked_changes, untracked_changes⟩,
       [Effect.openRepo work_dir] ++ read_trace)

/-- Embedding of `EnvironmentManager.run_in_container` (src lines 145 to
158).  Raises ValueError when no container is set; otherwise reloads the
container state, logs the status, starts the container when its status is
not `running`, and executes the command through `/bin/sh -c`, returning the
exit code and the utf-8 decoded output.  The start and exec calls may
raise. -/
def run_in_container (w : World) (st : EnvironmentManager) (command : String) :
    Except Exn (Int × String) × List Effect :=
  match st.container with
  | none =>
    (.error (Exn.valueError "Container not set up. Call setup_container first."),
     [])
  | some _ =>
    let tr0 := [Effect.containerReload,
                Effect.logInfo ("Container status: " ++ w.status)]
    let startRes : Except Exn Unit :=
      if w.status ≠ "running" then w.start else .ok ()
    let startTrace : List Effect :=
      if w.status ≠ "running" then [Effect.containerStart] else []
    match startRes with
    | .error e => (.error e, tr0 ++ startTrace)
    | .ok _ =>
      let cmdline := ["/bin/sh", "-c", command]
      match w.execRun cmdline with
      | .error e => (.error e, tr0 ++ startTrace ++ [Effect.containerExec cmdline])
      | .ok pr =>
        (.ok (pr.1, decodeUtf8 pr.2),
         tr0 ++ startTrace ++ [Effect.containerExec cmdline])

/-- Body of the `try` block of `EnvironmentManager.execute_command` (src
lines 113 to 134): provision the container when none is set, resolve the
shell command, run it in the container, snapshot the repository changes, and
assemble the success-path CommandResult.  An `Except.error` outcome is the
exception that escapes the block. -/
def execute_command_body (w : World) (st : EnvironmentManager)
    (command : Command) (args : Args) (config : EnvironmentConfig) :
    Except Exn CommandResult × EnvironmentManager × List Effect :=
  let setup_out :=
    match st.container with
    | none => setup_container w st command (some config.environment_vars)
    | some _ => (Except.ok (), st, ([] : List Effect))
  let st1 := setup_out.2.1
  let tr1 := setup_out.2.2
  match setup_out.1 with
  | .error e => (.error e, st1, tr1)
  | .ok _ =>
    match command.get_execution_command args with
    | .error e => (.error e, st1, tr1)
    | .ok shell_command =>
      let run_out := run_in_container w st1 shell_command
      match run_out.1 with
      | .error e => (.error e, st1, tr1 ++ run_out.2)
      | .ok pr =>
        let chg_out := get_repository_changes w st1
        match chg_out.1 with
        | .error e => (.error e, st1, tr1 ++ run_out.2 ++ chg_out.2)
        | .ok changes =>
          (.ok
            { success := pr.1 == 0,
              message := "Command " ++ command.metadata.name ++ " " ++
                (if pr.1 == 0 then "completed successfully" else "failed"),
              exit_code := some pr.1,
              output := if pr.1 == 0 then some pr.2 else none,
              error := if pr.1 != 0 then some pr.2 else none,
              changes := changes,
              data := [("command_name", command.metadata.name)] },
           st1, tr1 ++ run_out.2 ++ chg_out.2)

/-- The CommandResult built by the `except` branch of `execute_command`
(src lines 135 to 143): failure, message derived from the exception, empty
changes, the exception text under the `error` data key, and the optional
fields left at their `none` defaults. -/
def exceptionResult (e : Exn) : CommandResult :=
  { success := false,
    message := "Failed to execute command: " ++ e.str,
    exit_code := none,
    output := none,
    error := none,
    changes := emptyChanges,
    data := [("error", e.str)] }

/-- Embedding of `EnvironmentManager.execute_command` (src lines 109 to
143): the try body with every escaping exception translated into a failed
CommandResult. -/
def execute_command (w : World) (st : EnvironmentManager) (command : Command)
    (args : Args) (config : EnvironmentConfig) :
    CommandResult × EnvironmentManager × List Effect :=
  match execute_command_body w st command args config with
  | (.ok result, st1, tr) => (result, st1, tr)
  | (.error e, st1, tr) => (exceptionResult e, st1, tr)

/-- Embedding of `EnvironmentManager.cleanup` (src lines 160 to 171): stop
and remove the container when one is set and clear the field, then remove
the working directory tree when one is set and clear the field.  The
method has no try/except: each teardown call (`stop`, `remove`, `rmtree`)
may raise, in which case the exception propagates and the assignments not
yet reached do not happen. -/
def cleanup (w : World) (st : EnvironmentManager) :
    Except Exn Unit × EnvironmentManager × List Effect :=
  let step1 : Except Exn Unit × EnvironmentManager × List Effect :=
    match st.container with
    | some _ =>
      match w.stop with
      | .error e => (.error e, st, [Effect.containerStop])
      | .ok _ =>
        match w.remove with
        | .error e =>
          (.error e, st, [Effect.containerStop, Effect.containerRemove])
        | .ok _ =>
          (.ok (), { st with container := none },
           [Effect.containerStop, Effect.containerRemove])
    | none => (.ok (), st, [])
  match step1.1 with
  | .error e => (.error e, step1.2.1, step1.2.2)
  | .ok _ =>
    match step1.2.1.work_dir with
    | some wd =>
      match w.rmtree with
      | .error e => (.error e, step1.2.1, step1.2.2 ++ [Effect.rmtree wd])
      | .ok _ =>
        (.ok (), { step1.2.1 with work_dir := none },
         step1.2.2 ++ [Effect.rmtree wd])
    | none => (.ok (), step1.2.1, step1.2.2)

/-- One observable operation on an EnvironmentManager instance.
`set_work_dir` models the owning caller assigning the working directory
(`git_repo_manager.clone_repo`, outside the core), which is the only way
`work_dir` becomes set; the remaining constructors are the five methods. -/
inductive Op where
  | set_work_dir (p : String)
  | setup (c : Command) (env : Option (List (String × String)))
  | exec (c : Command) (a : Args) (cfg : EnvironmentConfig)
  | run (cmd : String)
  | changes
  | clean

/-- State reached after performing one operation against a given world.
`run_in_container` and `get_repository_changes` do not assign the instance
fields, so they leave the state unchanged. -/
def applyOp (w : World) (st : EnvironmentManager) : Op → EnvironmentManager
  | .set_work_dir p => { st with work_dir := some p }
  | .setup c env => (setup_container w st c env).2.1
  | .exec c a cfg => (execute_command w st c a cfg).2.1
  | .run _ => st
  | .changes => st
  | .clean => (cleanup w st).2.1

/-- State reached from a start state by a sequence of operations, each with
its own world. -/
def runOps (steps : List (World × Op)) (st : EnvironmentManager) :
    EnvironmentManager :=
  steps.foldl (fun s p => applyOp p.1 s p.2) st

/-! Concrete fixtures used by the witness theorems. -/

/-- Concrete command descriptor: an echo command. -/
def cmdEcho : Command :=
  { metadata := ⟨"echo", "", ""⟩,
    dockerfile := "FROM alpine",
    get_execution_command := fun _ => .ok "echo hi" }

/-- Concrete clean repository view: not dirty, nothing untracked. -/
def repoClean : GitRepo :=
  { is_dirty := false,
    diff_index := [],
    diff_head := [],
    git_diff_head := fun _ => "",
    untracked_files := [],
    read_file := fun _ => .ok "" }

/-- Concrete dirty repository view: one file modified against both the index
and HEAD, and one untracked file. -/
def repoDirty : GitRepo :=
  { is_dirty := true,
    diff_index := ["f.py"],
    diff_head := ["f.py"],
    git_diff_head := fun p => if p = "f.py" then "diff text" else "",
    untracked_files := ["g.py"],
    read_file := fun _ => .ok "print" }

/-- Concrete repository view with one readable and one unreadable untracked
file. -/
def repoMixed : GitRepo :=
  { is_dirty := false,
    diff_index := [],
    diff_head := [],
    git_diff_head := fun _ => "",
    untracked_files := ["good.txt", "bad.txt"],
    read_file := fun p =>
      if p = "good.txt" then .ok "content" else .error (.ioError "denied") }

/-- Concrete world in which every external call succeeds and the repository
is clean. -/
def worldOK : World :=
  { build := .ok "img",
    runContainer := .ok ⟨"repopal-echo"⟩,
    status := "running",
    start := .ok (),
    execRun := fun _ => .ok (0, "hi"),
    gitOpen := .ok repoClean,
    stop := .ok (),
    remove := .ok (),
    rmtree := .ok () }

/-- Concrete world in which stopping the container raises. -/
def worldStopFail : World :=
  { worldOK with stop := .error (.dockerError "stop failed") }

/-- Concrete world whose repository is `repoDirty`. -/
def worldDirty : World := { worldOK with gitOpen := .ok repoDirty }

/-- Concrete world whose repository is `repoMixed`. -/
def worldMixed : World := { worldOK with gitOpen := .ok repoMixed }

/-- Concrete state with both the working directory and the container set. -/
def stReady : EnvironmentManager := ⟨some "/wd", some ⟨"repopal-echo"⟩⟩

/-- Concrete state with only the working directory set. -/
def stWdOnly : EnvironmentManager := ⟨some "/wd", none⟩

/-- Concrete empty environment configuration. -/
def cfgEmpty : EnvironmentConfig := ⟨[]⟩

/-- Concrete operation sequence: the caller sets the working directory, then
the container is provisioned. -/
def demoSteps : List (World × Op) :=
  [(worldOK, .set_work_dir "/wd"), (worldOK, .setup cmdEcho none)]

/-- Provisioning effects: those performed only by `setup_container`. -/
def isProvisionEffect : Effect → Bool
  | .writeDockerfile _ => true
  | .buildImage => true
  | .runContainer _ _ => true
  | _ => false

/-- The invariant of claim C9: a container may exist only when a working
directory is set. -/
def containerInv (st : EnvironmentManager) : Prop :=
  st.container.isSome = true → st.work_dir.isSome = true

/-! Helper lemmas shared by the claim theorems. -/

/-- Membership in the deduplication worker. -/
lemma mem_dedupPathsAux (a : String) :
    ∀ (l seen : List String), a ∈ dedupPathsAux seen l ↔ a ∈ l ∧ a ∉ seen := by
  intro l
  induction l with
  | nil => intro seen; simp [dedupPathsAux]
  | cons p rest ih =>
    intro seen
    by_cases hp : p ∈ seen
    · simp only [dedupPathsAux, if_pos hp, ih, List.mem_cons]
      constructor
      · rintro ⟨h1, h2⟩; exact ⟨Or.inr h1, h2⟩
      · rintro ⟨h1 | h1, h2⟩
        · exact absurd hp (h1 ▸ h2)
        · exact ⟨h1, h2⟩
    · simp only [dedupPathsAux, if_neg hp, List.mem_cons, ih]
      constructor
      · rintro (rfl | ⟨h1, h2⟩)
        · exact ⟨Or.inl rfl, hp⟩
        · exact ⟨Or.inr h1, fun hs => h2 (Or.inr hs)⟩
      · rintro ⟨rfl | h1, h2⟩
        · exact Or.inl rfl
        · by_cases hap : a = p
          · exact Or.inl hap
          · refine Or.inr ⟨h1, ?_⟩
            rintro (h | h)
            · exact hap h
            · exact h2 h

/-- Membership in `dedupPaths` is membership in the input. -/
lemma mem_dedupPaths (a : String) (l : List String) :
    a ∈ dedupPaths l ↔ a ∈ l := by
  simp [dedupPaths, mem_dedupPathsAux]

/-- The deduplication worker returns a duplicate-free list. -/
lemma nodup_dedupPathsAux :
    ∀ (l seen : List String), (dedupPathsAux seen l).Nodup := by
  intro l
  induction l with
  | nil => intro seen; simp [dedupPathsAux]
  | cons p rest ih =>
    intro seen
    by_cases hp : p ∈ seen
    · simpa [dedupPathsAux, if_pos hp] using ih seen
    · simp only [dedupPathsAux, if_neg hp]
      exact List.nodup_cons.mpr
        ⟨fun hmem => ((mem_dedupPathsAux p rest (p :: seen)).mp hmem).2
          (List.mem_cons_self p seen),
         ih (p :: seen)⟩

/-- `dedupPaths` returns a duplicate-free list. -/
lemma nodup_dedupPaths (l : List String) : (dedupPaths l).Nodup :=
  nodup_dedupPathsAux l []

/-- With no working directory, `setup_container` raises ValueError leaving
the state unchanged and performing no effect. -/
lemma setup_container_no_wd (w : World) (st : EnvironmentManager) (c : Command)
    (env : Option (List (String × String))) (h : st.work_dir = none) :
    setup_container w st c env =
      (.error (Exn.valueError
        "Working directory not set up. Call git_repo_manager.clone_repo first."),
       st, []) := by
  simp [setup_container, h]

/-- With a working directory and a cooperating docker engine,
`setup_container` records the freshly run container and performs the three
provisioning effects. -/
lemma setup_container_ok (w : World) (st : EnvironmentManager) (c : Command)
    (env : Option (List (String × String))) (wd : String) (img : String)
    (ct : Container) (h : st.work_dir = some wd) (hb : w.build = .ok img)
    (hr : w.runContainer = .ok ct) :
    setup_container w st c env =
      (.ok (), { st with container := some ct },
       [Effect.writeDockerfile c.dockerfile, Effect.buildImage,
        Effect.runContainer ("repopal-" ++ c.metadata.name) (env.getD [])]) := by
  simp [setup_container, h, hb, hr]

/-- `setup_container` never assigns the working-directory field. -/
lemma setup_container_work_dir (w : World) (st : EnvironmentManager)
    (c : Command) (env : Option (List (String × String))) :
    (setup_container w st c env).2.1.work_dir = st.work_dir := by
  unfold setup_container
  rcases st with ⟨wd, ct⟩
  cases wd <;> cases w.build <;> cases w.runContainer <;> rfl

/-- After `cleanup`, either the container field is cleared or the state is
unchanged (a teardown call raised before the container was cleared). -/
lemma cleanup_state_cases (w : World) (st : EnvironmentManager) :
    (cleanup w st).2.1.container = none ∨ (cleanup w st).2.1 = st := by
  rcases st with ⟨wd, ct⟩
  cases ct with
  | none =>
    cases wd with
    | none => exact Or.inr rfl
    | some d =>
      cases hrm : w.rmtree with
      | error e => simp [cleanup, hrm]
      | ok u => simp [cleanup, hrm]
  | some c =>
    cases hstop : w.stop with
    | error e =>
      right
      simp [cleanup, hstop]
    | ok u =>
      cases hrem : w.remove with
      | error e =>
        right
        simp [cleanup, hstop, hrem]
      | ok u2 =>
        left
        cases wd with
        | none => simp [cleanup, hstop, hrem]
        | some d =>
          cases hrm : w.rmtree with
          | error e => simp [cleanup, hstop, hrem, hrm]
          | ok u3 => simp [cleanup, hstop, hrem, hrm]

/-- `cleanup` preserves the container invariant. -/
lemma cleanup_preserves_inv (w : World) (st : EnvironmentManager)
    (h : containerInv st) : containerInv ((cleanup w st).2.1) := by
  rcases cleanup_state_cases w st with hnone | heq
  · intro hx
    rw [hnone] at hx
    simp at hx
  · rw [heq]
    exact h

/-- When every teardown call succeeds, `cleanup` returns normally and ends
with both fields cleared, whatever the start state. -/
lemma cleanup_ok_state (w : World) (st : EnvironmentManager)
    (hstop : w.stop = .ok ()) (hrem : w.remove = .ok ())
    (hrm : w.rmtree = .ok ()) :
    (cleanup w st).1 = .ok () ∧ (cleanup w st).2.1 = ⟨none, none⟩ := by
  rcases st with ⟨wd, ct⟩
  cases ct <;> cases wd <;> simp [cleanup, hstop, hrem, hrm]

/-- When `run_in_container` returns normally, the shell-wrapped exec call is
among its effects. -/
lemma run_in_container_ok_trace (w : World) (st : EnvironmentManager)
    (cmd : String) (pr : Int × String)
    (h : (run_in_container w st cmd).1 = .ok pr) :
    Effect.containerExec ["/bin/sh", "-c", cmd] ∈ (run_in_container w st cmd).2 := by
  rcases st with ⟨wd, ct⟩
  cases ct with
  | none => simp [run_in_container] at h
  | some c =>
    by_cases hs : w.status ≠ "running"
    · cases hst : w.start with
      | error e => simp [run_in_container, hs, hst] at h
      | ok u =>
        cases he : w.execRun ["/bin/sh", "-c", cmd] with
        | error e => simp [run_in_container, hs, hst, he] at h
        | ok pr2 => simp [run_in_container, hs, hst, he]
    · cases he : w.execRun ["/bin/sh", "-c", cmd] with
      | error e => simp [run_in_container, hs, he] at h
      | ok pr2 => simp [run_in_container, hs, he]

/-- The state returned by the try body: the post-provisioning state, namely
the setup result state when no container was set, and the input state
otherwise. -/
lemma execute_command_body_state (w : World) (st : EnvironmentManager)
    (c : Command) (a : Args) (cfg : EnvironmentConfig) :
    (execute_command_body w st c a cfg).2.1 =
      (match st.container with
       | none => (setup_container w st c (some cfg.environment_vars)).2.1
       | some _ => st) := by
  unfold execute_command_body
  cases st.container <;> dsimp only <;> (repeat' split) <;> rfl

/-- The trace of the try body extends the setup trace. -/
lemma execute_command_body_trace (w : World) (st : EnvironmentManager)
    (c : Command) (a : Args) (cfg : EnvironmentConfig) :
    ∃ t, (execute_command_body w st c a cfg).2.2 =
      (match st.container with
       | none => (setup_container w st c (some cfg.environment_vars)).2.2
       | some _ => []) ++ t := by
  unfold execute_command_body
  cases st.container <;> dsimp only <;> (repeat' split)
  all_goals first
    | exact ⟨[], (List.append_nil _).symm⟩
    | exact ⟨_, rfl⟩
    | (rw [List.append_assoc]; exact ⟨_, rfl⟩)

/-- The wrapper agrees with the try body on state and trace. -/
lemma execute_command_snd (w : World) (st : EnvironmentManager) (c : Command)
    (a : Args) (cfg : EnvironmentConfig) :
    (execute_command w st c a cfg).2 = (execute_command_body w st c a cfg).2 := by
  unfold execute_command
  rcases hb : execute_command_body w st c a cfg with ⟨res, st1, tr⟩
  cases res <;> rfl

/-- The wrapper on a try body that raised: the exception branch result. -/
lemma execute_command_of_body_error (w : World) (st : EnvironmentManager)
    (c : Command) (a : Args) (cfg : EnvironmentConfig) (e : Exn)
    (st1 : EnvironmentManager) (tr : List Effect)
    (h : execute_command_body w st c a cfg = (.error e, st1, tr)) :
    execute_command w st c a cfg = (exceptionResult e, st1, tr) := by
  unfold execute_command
  rw [h]

/-- The wrapper on a try body that returned: the body result itself. -/
lemma execute_command_of_body_ok (w : World) (st : EnvironmentManager)
    (c : Command) (a : Args) (cfg : EnvironmentConfig) (r : CommandResult)
    (st1 : EnvironmentManager) (tr : List Effect)
    (h : execute_command_body w st c a cfg = (.ok r, st1, tr)) :
    execute_command w st c a cfg = (r, st1, tr) := by
  unfold execute_command
  rw [h]

/-- Shape of every normally returned result of the try body: the shell
command was resolved, run in the container, the changes snapshotted with the
post-setup state, and the fields assembled from the exit code and output;
the extraction effects are the final segment of the trace and the exec call
happened before them. -/
lemma execute_command_body_ok_shape (w : World) (st : EnvironmentManager)
    (c : Command) (a : Args) (cfg : EnvironmentConfig) (r : CommandResult)
    (st1 : EnvironmentManager) (tr : List Effect)
    (h : execute_command_body w st c a cfg = (.ok r, st1, tr)) :
    ∃ sc ec out,
      c.get_execution_command a = .ok sc ∧
      (run_in_container w st1 sc).1 = .ok (ec, out) ∧
      (get_repository_changes w st1).1 = .ok r.changes ∧
      r.success = (ec == 0) ∧
      r.exit_code = some ec ∧
      r.output = (if ec == 0 then some out else none) ∧
      r.error = (if ec != 0 then some out else none) ∧
      r.message = "Command " ++ c.metadata.name ++ " " ++
        (if ec == 0 then "completed successfully" else "failed") ∧
      r.data = [("command_name", c.metadata.name)] ∧
      ∃ t1, tr = t1 ++ (get_repository_changes w st1).2 ∧
        Effect.containerExec ["/bin/sh", "-c", sc] ∈ t1 := by
  unfold execute_command_body at h
  rcases hc : st.container with _ | ct
  · rw [hc] at h
    dsimp only at h
    cases hse : (setup_container w st c (some cfg.environment_vars)).1 with
    | error e => rw [hse] at h; exact absurd h (by simp)
    | ok u =>
      rw [hse] at h
      dsimp only at h
      cases hsc : c.get_execution_command a with
      | error e => rw [hsc] at h; exact absurd h (by simp)
      | ok sc =>
        rw [hsc] at h
        dsimp only at h
        cases hrun : (run_in_container w
            (setup_container w st c (some cfg.environment_vars)).2.1 sc).1 with
        | error e => rw [hrun] at h; exact absurd h (by simp)
        | ok pr =>
          rw [hrun] at h
          dsimp only at h
          cases hchg : (get_repository_changes w
              (setup_container w st c (some cfg.environment_vars)).2.1).1 with
          | error e => rw [hchg] at h; exact absurd h (by simp)
          | ok changes =>
            rw [hchg] at h
            dsimp only at h
            rw [Prod.mk.injEq, Prod.mk.injEq, Except.ok.injEq] at h
            obtain ⟨hr, hst1, htr⟩ := h
            subst hst1
            refine ⟨sc, pr.1, pr.2, rfl, ?_, ?_, ?_⟩
            · rw [hrun]
            · rw [hchg, ← hr]
            · subst hr
              exact ⟨rfl, rfl, rfl, rfl, rfl, rfl,
                ⟨_, htr.symm, List.mem_append.mpr
                  (Or.inr (run_in_container_ok_trace w _ sc pr hrun))⟩⟩
  · rw [hc] at h
    dsimp only at h
    cases hsc : c.get_execution_command a with
    | error e => rw [hsc] at h; exact absurd h (by simp)
    | ok sc =>
      rw [hsc] at h
      dsimp only at h
      cases hrun : (run_in_container w st sc).1 with
      | error e => rw [hrun] at h; exact absurd h (by simp)
      | ok pr =>
        rw [hrun] at h
        dsimp only at h
        cases hchg : (get_repository_changes w st).1 with
        | error e => rw [hchg] at h; exact absurd h (by simp)
        | ok changes =>
          rw [hchg] at h
          dsimp only at h
          rw [Prod.mk.injEq, Prod.mk.injEq, Except.ok.injEq] at h
          obtain ⟨hr, hst1, htr⟩ := h
          subst hst1
          refine ⟨sc, pr.1, pr.2, rfl, ?_, ?_, ?_⟩
          · rw [hrun]
          · rw [hchg, ← hr]
          · subst hr
            exact ⟨rfl, rfl, rfl, rfl, rfl, rfl,
              ⟨_, htr.symm, List.mem_append.mpr
                (Or.inr (run_in_container_ok_trace w _ sc pr hrun))⟩⟩

/-- No effect of `run_in_container` is a provisioning effect. -/
lemma run_in_container_no_provision (w : World) (st : EnvironmentManager)
    (cmd : String) :
    ∀ ef ∈ (run_in_container w st cmd).2, isProvisionEffect ef = false := by
  intro ef hef
  rcases st with ⟨wd, ct⟩
  cases ct with
  | none => simp [run_in_container] at hef
  | some c =>
    by_cases hs : w.status ≠ "running"
    · cases hst : w.start with
      | error e =>
        simp [run_in_container, hs, hst] at hef
        rcases hef with rfl | rfl | rfl <;> rfl
      | ok u =>
        cases he : w.execRun ["/bin/sh", "-c", cmd] with
        | error e =>
          simp [run_in_container, hs, hst, he] at hef
          rcases hef with rfl | rfl | rfl | rfl <;> rfl
        | ok pr =>
          simp [run_in_container, hs, hst, he] at hef
          rcases hef with rfl | rfl | rfl | rfl <;> rfl
    · cases he : w.execRun ["/bin/sh", "-c", cmd] with
      | error e =>
        simp [run_in_container, hs, he] at hef
        rcases hef with rfl | rfl | rfl <;> rfl
      | ok pr =>
        simp [run_in_container, hs, he] at hef
        rcases hef with rfl | rfl | rfl <;> rfl

/-- No effect of `get_repository_changes` is a provisioning effect. -/
lemma get_repository_changes_no_provision (w : World) (st : EnvironmentManager) :
    ∀ ef ∈ (get_repository_changes w st).2, isProvisionEffect ef = false := by
  intro ef hef
  rcases st with ⟨wd, ct⟩
  cases wd with
  | none => simp [get_repository_changes] at hef
  | some wd =>
    cases hg : w.gitOpen with
    | error e =>
      simp [get_repository_changes, hg] at hef
      subst hef; rfl
    | ok repo =>
      simp only [get_repository_changes, hg, List.singleton_append,
        List.mem_cons] at hef
      rcases hef with rfl | hef
      · rfl
      · obtain ⟨pr, hpr, hin⟩ := List.mem_flatMap.mp hef
        cases hr : pr.2 with
        | ok content =>
          rw [hr] at hin
          simp only [List.mem_singleton] at hin
          subst hin; rfl
        | error e =>
          rw [hr] at hin
          rcases List.mem_cons.mp hin with rfl | hin2
          · rfl
          · rcases List.mem_singleton.mp hin2 with rfl
            rfl

/-- With a container already set, every effect of the try body comes from
the in-container run or from the change extraction. -/
lemma execute_command_body_trace_some (w : World) (st : EnvironmentManager)
    (c : Command) (a : Args) (cfg : EnvironmentConfig) (ct : Container)
    (hc : st.container = some ct) :
    ∀ ef ∈ (execute_command_body w st c a cfg).2.2,
      (∃ sc, ef ∈ (run_in_container w st sc).2) ∨
        ef ∈ (get_repository_changes w st).2 := by
  intro ef hef
  unfold execute_command_body at hef
  rw [hc] at hef
  dsimp only at hef
  cases hsc : c.get_execution_command a with
  | error e => rw [hsc] at hef; simp at hef
  | ok sc =>
    rw [hsc] at hef
    dsimp only at hef
    cases hrun : (run_in_container w st sc).1 with
    | error e =>
      rw [hrun] at hef
      dsimp only at hef
      exact Or.inl ⟨sc, by simpa using hef⟩
    | ok pr =>
      rw [hrun] at hef
      dsimp only at hef
      cases hchg : (get_repository_changes w st).1 with
      | error e =>
        rw [hchg] at hef
        dsimp only at hef
        rcases List.mem_append.mp hef with h | h
        · exact Or.inl ⟨sc, by simpa using h⟩
        · exact Or.inr h
      | ok chg =>
        rw [hchg] at hef
        dsimp only at hef
        rcases List.mem_append.mp hef with h | h
        · exact Or.inl ⟨sc, by simpa using h⟩
        · exact Or.inr h

/-- `setup_container` preserves the container invariant. -/
lemma setup_container_preserves_inv (w : World) (st : EnvironmentManager)
    (c : Command) (env : Option (List (String × String)))
    (h : containerInv st) :
    containerInv ((setup_container w st c env).2.1) := by
  rcases hw : st.work_dir with _ | wd
  · rw [setup_container_no_wd w st c env hw]; exact h
  · intro _
    rw [setup_container_work_dir, hw]
    rfl

/-- Every operation preserves the container invariant. -/
lemma applyOp_preserves_inv (w : World) (op : Op) (st : EnvironmentManager)
    (h : containerInv st) : containerInv (applyOp w st op) := by
  cases op with
  | set_work_dir p => intro _; rfl
  | setup c env => exact setup_container_preserves_inv w st c env h
  | exec c a cfg =>
    show containerInv ((execute_command w st c a cfg).2.1)
    rw [execute_command_snd, execute_command_body_state]
    rcases hc : st.container with _ | ct
    · exact setup_container_preserves_inv w st c (some cfg.environment_vars) h
    · exact h
  | run cmd => exact h
  | changes => exact h
  | clean => exact cleanup_preserves_inv w st h

/-- Mapping `path` over a filterMap that keeps the input path yields a
duplicate-free list whenever the inputs are duplicate-free. -/
lemma nodup_map_path_filterMap (f : String → Option TrackedChange)
    (hf : ∀ p tc, f p = some tc → tc.path = p) :
    ∀ l : List String, l.Nodup →
      ((l.filterMap f).map TrackedChange.path).Nodup := by
  intro l
  induction l with
  | nil => intro _; simp
  | cons p rest ih =>
    intro hl
    rw [List.nodup_cons] at hl
    cases hfp : f p with
    | none => simpa [List.filterMap_cons, hfp] using ih hl.2
    | some tc =>
      rw [List.filterMap_cons, hfp, List.map_cons, List.nodup_cons]
      refine ⟨?_, ih hl.2⟩
      intro hmem
      obtain ⟨tc2, htc2, hpath⟩ := List.mem_map.mp hmem
      obtain ⟨q, hq, hfq⟩ := List.mem_filterMap.mp htc2
      exact hl.1 (by
        rw [← hf q tc2 hfq, hpath, hf p tc hfp] at hq
        exact hq)

/-! Claim theorems. -/

/-- Claim C1: `execute_command` never propagates an exception (it totally
returns a CommandResult); when no exception occurs in the try body the
result satisfies success iff the exit code is zero (globally, success holds
exactly when the exit code field is `some 0`), and when any exception
escapes the body the result is the failure result: success false, message
derived from the exception, and empty RepositoryChanges. -/
theorem execute_command_fail_soft (w : World) (st : EnvironmentManager)
    (c : Command) (a : Args) (cfg : EnvironmentConfig) :
    ((execute_command w st c a cfg).1.success = true ↔
      (execute_command w st c a cfg).1.exit_code = some 0) ∧
    (∀ e st1 tr, execute_command_body w st c a cfg = (.error e, st1, tr) →
      execute_command w st c a cfg = (exceptionResult e, st1, tr) ∧
      (exceptionResult e).success = false ∧
      (exceptionResult e).changes = emptyChanges ∧
      (exceptionResult e).message = "Failed to execute command: " ++ e.str) := by
  constructor
  · rcases hb : execute_command_body w st c a cfg with ⟨res, st1, tr⟩
    cases res with
    | error e =>
      rw [execute_command_of_body_error w st c a cfg e st1 tr hb]
      simp [exceptionResult]
    | ok r =>
      rw [execute_command_of_body_ok w st c a cfg r st1 tr hb]
      obtain ⟨sc, ec, out, hsc, hrun, hchg, hsucc, hec, hrest⟩ :=
        execute_command_body_ok_shape w st c a cfg r st1 tr hb
      rw [hsucc, hec]
      simp
  · intro e st1 tr hb
    exact ⟨execute_command_of_body_error w st c a cfg e st1 tr hb, rfl, rfl, rfl⟩

/-- Claim C1 witness: on a fresh manager with no working directory, setup
raises inside the try body and `execute_command` returns the failure
result. -/
theorem execute_command_fail_soft_witness :
    execute_command worldOK freshManager cmdEcho [] cfgEmpty =
      (exceptionResult (.valueError
        "Working directory not set up. Call git_repo_manager.clone_repo first."),
       freshManager, []) ∧
    (exceptionResult (Exn.valueError
      "Working directory not set up. Call git_repo_manager.clone_repo first.")).success
        = false ∧
    (exceptionResult (Exn.valueError
      "Working directory not set up. Call git_repo_manager.clone_repo first.")).changes
        = emptyChanges ∧
    (exceptionResult (Exn.valueError
      "Working directory not set up. Call git_repo_manager.clone_repo first.")).message
        = "Failed to execute command: " ++ (Exn.valueError
          "Working directory not set up. Call git_repo_manager.clone_repo first.").str :=
  (execute_command_fail_soft worldOK freshManager cmdEcho [] cfgEmpty).2
    (.valueError
      "Working directory not set up. Call git_repo_manager.clone_repo first.")
    freshManager [] rfl

/-- Claim C2: on the non-exception path, the result carries the exit code,
its output field is the combined output exactly when the exit code is zero
and `none` otherwise, its error field is that output exactly when the exit
code is nonzero and `none` otherwise, and its changes field is the
repository snapshot, whose effects happen after the in-container exec. -/
theorem execute_command_success_path (w : World) (st : EnvironmentManager)
    (c : Command) (a : Args) (cfg : EnvironmentConfig) (r : CommandResult)
    (st1 : EnvironmentManager) (tr : List Effect)
    (h : execute_command_body w st c a cfg = (.ok r, st1, tr)) :
    execute_command w st c a cfg = (r, st1, tr) ∧
    ∃ sc ec out,
      c.get_execution_command a = .ok sc ∧
      (run_in_container w st1 sc).1 = .ok (ec, out) ∧
      r.exit_code = some ec ∧
      r.success = (ec == 0) ∧
      r.output = (if ec == 0 then some out else none) ∧
      r.error = (if ec != 0 then some out else none) ∧
      (get_repository_changes w st1).1 = .ok r.changes ∧
      ∃ t1, tr = t1 ++ (get_repository_changes w st1).2 ∧
        Effect.containerExec ["/bin/sh", "-c", sc] ∈ t1 := by
  refine ⟨execute_command_of_body_ok w st c a cfg r st1 tr h, ?_⟩
  obtain ⟨sc, ec, out, hsc, hrun, hchg, hsucc, hec, hout, herr, hmsg, hdata, ht⟩ :=
    execute_command_body_ok_shape w st c a cfg r st1 tr h
  exact ⟨sc, ec, out, hsc, hrun, hec, hsucc, hout, herr, hchg, ht⟩

/-- Claim C2 witness: a fully successful concrete run, with the snapshot
effect after the exec effect. -/
theorem execute_command_success_path_witness :
    execute_command worldOK stReady cmdEcho [] cfgEmpty =
      ({ success := true, message := "Command echo completed successfully",
         exit_code := some 0, output := some "hi", error := none,
         changes := emptyChanges, data := [("command_name", "echo")] },
       stReady,
       [Effect.containerReload, Effect.logInfo "Container status: running",
        Effect.containerExec ["/bin/sh", "-c", "echo hi"],
        Effect.openRepo "/wd"]) ∧
    ∃ sc ec out,
      cmdEcho.get_execution_command [] = .ok sc ∧
      (run_in_container worldOK stReady sc).1 = .ok (ec, out) ∧
      ({ success := true, message := "Command echo completed successfully",
         exit_code := some 0, output := some "hi", error := none,
         changes := emptyChanges,
         data := [("command_name", "echo")] } : CommandResult).exit_code = some ec ∧
      ({ success := true, message := "Command echo completed successfully",
         exit_code := some 0, output := some "hi", error := none,
         changes := emptyChanges,
         data := [("command_name", "echo")] } : CommandResult).success = (ec == 0) ∧
      ({ success := true, message := "Command echo completed successfully",
         exit_code := some 0, output := some "hi", error := none,
         changes := emptyChanges,
         data := [("command_name", "echo")] } : CommandResult).output =
        (if ec == 0 then some out else none) ∧
      ({ success := true, message := "Command echo completed successfully",
         exit_code := some 0, output := some "hi", error := none,
         changes := emptyChanges,
         data := [("command_name", "echo")] } : CommandResult).error =
        (if ec != 0 then some out else none) ∧
      (get_repository_changes worldOK stReady).1 = .ok emptyChanges ∧
      ∃ t1, [Effect.containerReload, Effect.logInfo "Container status: running",
             Effect.containerExec ["/bin/sh", "-c", "echo hi"],
             Effect.openRepo "/wd"] =
          t1 ++ (get_repository_changes worldOK stReady).2 ∧
        Effect.containerExec ["/bin/sh", "-c", sc] ∈ t1 :=
  execute_command_success_path worldOK stReady cmdEcho [] cfgEmpty
    { success := true, message := "Command echo completed successfully",
      exit_code := some 0, output := some "hi", error := none,
      changes := emptyChanges, data := [("command_name", "echo")] }
    stReady
    [Effect.containerReload, Effect.logInfo "Container status: running",
     Effect.containerExec ["/bin/sh", "-c", "echo hi"],
     Effect.openRepo "/wd"]
    (by rfl)

/-- Claim C3: `run_in_container` raises ValueError (the
container-not-ready error) when no container is configured; otherwise it
reloads the container state, starts the container exactly when its status
is not running, executes the command through the `/bin/sh -c` shell
wrapper, and returns the exit code with the decoded output. -/
theorem run_in_container_contract (w : World) (st : EnvironmentManager)
    (cmd : String) :
    (st.container = none →
      run_in_container w st cmd =
        (.error (Exn.valueError "Container not set up. Call setup_container first."),
         [])) ∧
    (∀ ct, st.container = some ct →
      ∀ ec raw, w.execRun ["/bin/sh", "-c", cmd] = .ok (ec, raw) →
        (w.status = "running" →
          run_in_container w st cmd =
            (.ok (ec, decodeUtf8 raw),
             [Effect.containerReload,
              Effect.logInfo ("Container status: " ++ w.status),
              Effect.containerExec ["/bin/sh", "-c", cmd]])) ∧
        (w.status ≠ "running" → w.start = .ok () →
          run_in_container w st cmd =
            (.ok (ec, decodeUtf8 raw),
             [Effect.containerReload,
              Effect.logInfo ("Container status: " ++ w.status),
              Effect.containerStart,
              Effect.containerExec ["/bin/sh", "-c", cmd]]))) := by
  constructor
  · intro hc
    simp [run_in_container, hc]
  · intro ct hc ec raw hex
    constructor
    · intro hs
      simp [run_in_container, hc, hs, hex]
    · intro hs hstart
      simp [run_in_container, hc, hs, hstart, hex]

/-- Claim C3 witness: with no container configured, the call fails with the
container-not-ready ValueError. -/
theorem run_in_container_contract_witness :
    run_in_container worldOK freshManager "ls" =
      (.error (Exn.valueError "Container not set up. Call setup_container first."),
       []) :=
  (run_in_container_contract worldOK freshManager "ls").1 rfl

/-- Claim C4: `setup_container` with no working directory fails with
ValueError (the configuration error), returns the state unchanged, and
performs no side effect: the effect trace is empty, so no build context is
written, no image is built and no container is run. -/
theorem setup_container_requires_work_dir (w : World) (st : EnvironmentManager)
    (c : Command) (env : Option (List (String × String)))
    (h : st.work_dir = none) :
    setup_container w st c env =
      (.error (Exn.valueError
        "Working directory not set up. Call git_repo_manager.clone_repo first."),
       st, []) :=
  setup_container_no_wd w st c env h

/-- Claim C4 witness: setup on a fresh manager fails with the configuration
ValueError and an empty trace. -/
theorem setup_container_requires_work_dir_witness :
    setup_container worldOK freshManager cmdEcho none =
      (.error (Exn.valueError
        "Working directory not set up. Call git_repo_manager.clone_repo first."),
       freshManager, []) :=
  setup_container_requires_work_dir worldOK freshManager cmdEcho none rfl

/-- Claim C7 counterexample: `cleanup` is not total.  In a concrete state
with a container and a working directory, when `container.stop()` raises,
the method propagates the exception and clears neither field, refuting
`from any state, calling cleanup succeeds without throwing and leaves both
fields cleared` — the source method has no try/except around its teardown
calls. -/
theorem cleanup_total_counterexample :
    (cleanup worldStopFail stReady).1 =
      .error (Exn.dockerError "stop failed") ∧
    (cleanup worldStopFail stReady).2.1 = stReady ∧
    (cleanup worldStopFail stReady).2.1.container = some ⟨"repopal-echo"⟩ ∧
    (cleanup worldStopFail stReady).2.1.work_dir = some "/wd" :=
  ⟨rfl, rfl, rfl, rfl⟩

/-- Claim C7 as amended: from any state (including after a partial setup
where only the working directory exists, or where neither resource exists),
whenever the teardown calls `cleanup` performs do not raise, it returns
normally and leaves both fields cleared, and a second consecutive call
(under any world) also returns normally, performs no effect, and leaves
the same final state; when a teardown call raises, the exception
propagates and the fields not yet cleared remain set. -/
theorem cleanup_idempotent_when_teardown_succeeds (w : World)
    (st : EnvironmentManager) (hstop : w.stop = .ok ())
    (hrem : w.remove = .ok ()) (hrm : w.rmtree = .ok ()) :
    (cleanup w st).1 = .ok () ∧
    (cleanup w st).2.1.container = none ∧
    (cleanup w st).2.1.work_dir = none ∧
    ∀ w2 : World, cleanup w2 (cleanup w st).2.1 =
      (.ok (), (cleanup w st).2.1, []) := by
  have hstate := cleanup_ok_state w st hstop hrem hrm
  refine ⟨hstate.1, ?_, ?_, ?_⟩
  · rw [hstate.2]
  · rw [hstate.2]
  · intro w2
    rw [hstate.2]
    rfl

/-- Claim C7 witness: on a concrete state with both resources and a
cooperating engine, cleanup returns normally, clears both fields, and a
second call is a returning no-op. -/
theorem cleanup_idempotent_when_teardown_succeeds_witness :
    (cleanup worldOK stReady).1 = .ok () ∧
    (cleanup worldOK stReady).2.1.container = none ∧
    (cleanup worldOK stReady).2.1.work_dir = none ∧
    cleanup worldOK (cleanup worldOK stReady).2.1 =
      (.ok (), (cleanup worldOK stReady).2.1, []) :=
  let h := cleanup_idempotent_when_teardown_succeeds worldOK stReady rfl rfl rfl
  ⟨h.1, h.2.1, h.2.2.1, h.2.2.2 worldOK⟩

/-- Claim C5: extraction collects tracked changes as the deduplicated union
of paths changed against the index and against HEAD, keeping exactly those
with a non-empty diff against HEAD (soundness, completeness and no
duplicate per path), and untracked changes with each readable file content;
in particular, with one file modified against both lists and one untracked
file, the result is exactly one TrackedChange and one UntrackedChange. -/
theorem extract_changes_tracked_untracked (w : World) (st : EnvironmentManager)
    (wd : String) (repo : GitRepo) (h1 : st.work_dir = some wd)
    (h2 : w.gitOpen = .ok repo) :
    (∃ chs, (get_repository_changes w st).1 = .ok chs ∧
      (∀ tc ∈ chs.tracked_changes,
        repo.is_dirty = true ∧
        tc.path ∈ repo.diff_index ++ repo.diff_head ∧
        tc.diff = repo.git_diff_head tc.path ∧ tc.diff ≠ "") ∧
      (chs.tracked_changes.map TrackedChange.path).Nodup ∧
      (∀ p, repo.is_dirty = true → p ∈ repo.diff_index ++ repo.diff_head →
        repo.git_diff_head p ≠ "" →
        p ∈ chs.tracked_changes.map TrackedChange.path) ∧
      (∀ p cont, p ∈ repo.untracked_files → repo.read_file p = .ok cont →
        UntrackedChange.mk p cont ∈ chs.untracked_changes)) ∧
    (∀ fF gG dF cG,
      repo.is_dirty = true →
      repo.diff_index = [fF] → repo.diff_head = [fF] →
      repo.git_diff_head fF = dF → dF ≠ "" →
      repo.untracked_files = [gG] → repo.read_file gG = .ok cG →
      (get_repository_changes w st).1 =
        .ok ⟨[⟨fF, dF⟩], [⟨gG, cG⟩]⟩) := by
  constructor
  · simp only [get_repository_changes, h1, h2]
    refine ⟨_, rfl, ?_, ?_, ?_, ?_⟩
    · intro tc htc
      cases hd : repo.is_dirty with
      | false => rw [hd] at htc; simp at htc
      | true =>
        rw [hd] at htc
        simp only [if_pos] at htc
        obtain ⟨p, hp, hfp⟩ := List.mem_filterMap.mp htc
        by_cases hne : repo.git_diff_head p ≠ ""
        · rw [if_pos hne] at hfp
          obtain rfl := Option.some.injEq _ _ ▸ hfp
          exact ⟨rfl, (mem_dedupPaths p _).mp hp, rfl, hne⟩
        · rw [if_neg hne] at hfp
          exact absurd hfp (by simp)
    · cases hd : repo.is_dirty with
      | false => simp
      | true =>
        exact nodup_map_path_filterMap _
          (fun p tc hp => by
            by_cases hne : repo.git_diff_head p ≠ ""
            · rw [if_pos hne] at hp
              obtain rfl := Option.some.injEq _ _ ▸ hp
              rfl
            · rw [if_neg hne] at hp
              exact absurd hp (by simp))
          _ (nodup_dedupPaths _)
    · intro p hd hp hne
      rw [hd]
      simp only [if_pos]
      refine List.mem_map.mpr ⟨⟨p, repo.git_diff_head p⟩, ?_, rfl⟩
      exact List.mem_filterMap.mpr
        ⟨p, (mem_dedupPaths p _).mpr hp, by rw [if_pos hne]⟩
    · intro p cont hp hr
      refine List.mem_filterMap.mpr ⟨(p, repo.read_file p), ?_, ?_⟩
      · exact List.mem_map.mpr ⟨p, hp, rfl⟩
      · show (match repo.read_file p with
          | Except.ok content => some (UntrackedChange.mk p content)
          | Except.error _ => none) = some (UntrackedChange.mk p cont)
        rw [hr]
  · intro fF gG dF cG hd hdi hdh hdf hne hun hrd
    subst hdf
    simp [get_repository_changes, h1, h2, hd, hdi, hdh, hne, hun, hrd,
      dedupPaths, dedupPathsAux]

/-- Claim C5 witness: the concrete dirty repository with one modified file
and one untracked file yields exactly one TrackedChange and one
UntrackedChange. -/
theorem extract_changes_tracked_untracked_witness :
    (get_repository_changes worldDirty stWdOnly).1 =
      .ok ⟨[⟨"f.py", "diff text"⟩], [⟨"g.py", "print"⟩]⟩ :=
  (extract_changes_tracked_untracked worldDirty stWdOnly "/wd" repoDirty
      rfl rfl).2
    "f.py" "g.py" "diff text" "print" rfl rfl rfl rfl (by decide) rfl rfl

/-- Claim C6: a failing read of an untracked file never propagates out of
the extraction: the result is still ok, the failing file is logged with a
warning and omitted, and every other readable untracked file is still
captured with its content. -/
theorem extract_read_failure_nonfatal (w : World) (st : EnvironmentManager)
    (wd : String) (repo : GitRepo) (h1 : st.work_dir = some wd)
    (h2 : w.gitOpen = .ok repo) :
    ∃ chs tr, get_repository_changes w st = (.ok chs, tr) ∧
      (∀ p e, p ∈ repo.untracked_files → repo.read_file p = .error e →
        Effect.logWarning
          ("Could not read untracked file " ++ p ++ ": " ++ Exn.str e) ∈ tr ∧
        ∀ uc ∈ chs.untracked_changes, uc.path ≠ p) ∧
      (∀ p cont, p ∈ repo.untracked_files → repo.read_file p = .ok cont →
        UntrackedChange.mk p cont ∈ chs.untracked_changes) := by
  simp only [get_repository_changes, h1, h2]
  refine ⟨_, _, rfl, ?_, ?_⟩
  · intro p e hp he
    constructor
    · refine List.mem_append.mpr (Or.inr ?_)
      refine List.mem_flatMap.mpr ⟨(p, repo.read_file p), ?_, ?_⟩
      · exact List.mem_map.mpr ⟨p, hp, rfl⟩
      · show Effect.logWarning _ ∈ (match repo.read_file p with
          | Except.ok _ => [Effect.readFile p]
          | Except.error e =>
            [Effect.readFile p,
             Effect.logWarning
               ("Could not read untracked file " ++ p ++ ": " ++ Exn.str e)])
        rw [he]
        simp
    · intro uc huc hpath
      obtain ⟨pr, hpr, hm⟩ := List.mem_filterMap.mp huc
      obtain ⟨q, hq, hpr2⟩ := List.mem_map.mp hpr
      subst hpr2
      cases hr : repo.read_file q with
      | error e2 =>
        rw [show (q, repo.read_file q).2 = repo.read_file q from rfl, hr] at hm
        exact absurd hm (by simp)
      | ok cnt =>
        rw [show (q, repo.read_file q).2 = repo.read_file q from rfl, hr] at hm
        obtain rfl := Option.some.injEq _ _ ▸ hm
        rw [show (UntrackedChange.mk q cnt).path = q from rfl] at hpath
        subst hpath
        rw [he] at hr
        exact absurd hr (by simp)
  · intro p cont hp hr
    refine List.mem_filterMap.mpr ⟨(p, repo.read_file p), ?_, ?_⟩
    · exact List.mem_map.mpr ⟨p, hp, rfl⟩
    · show (match repo.read_file p with
        | Except.ok content => some (UntrackedChange.mk p content)
        | Except.error _ => none) = some (UntrackedChange.mk p cont)
      rw [hr]

/-- Claim C6 witness: in the concrete mixed repository the unreadable
untracked file produces a logged warning while extraction still returns. -/
theorem extract_read_failure_nonfatal_witness :
    Effect.logWarning
      ("Could not read untracked file " ++ "bad.txt" ++ ": " ++
        Exn.str (.ioError "denied")) ∈
      (get_repository_changes worldMixed stWdOnly).2 := by
  obtain ⟨chs, tr, heq, hfail, hok⟩ :=
    extract_read_failure_nonfatal worldMixed stWdOnly "/wd" repoMixed rfl rfl
  have h := (hfail "bad.txt" (.ioError "denied") (by decide) rfl).1
  rw [heq]
  exact h

/-- Claim C8: `execute_command` provisions a container exactly when none is
configured: with a container set it leaves the state unchanged and performs
no provisioning effect (no build context write, no image build, no
container run), and with no container set (and a working directory and
cooperating engine) the trace builds the image and the final state holds
the freshly run container. -/
theorem execute_command_provisions_once (w : World) (st : EnvironmentManager)
    (c : Command) (a : Args) (cfg : EnvironmentConfig) :
    (∀ ct, st.container = some ct →
      (execute_command w st c a cfg).2.1 = st ∧
      ∀ ef ∈ (execute_command w st c a cfg).2.2,
        isProvisionEffect ef = false) ∧
    (st.container = none → ∀ wd, st.work_dir = some wd →
      ∀ img ct, w.build = .ok img → w.runContainer = .ok ct →
        Effect.buildImage ∈ (execute_command w st c a cfg).2.2 ∧
        (execute_command w st c a cfg).2.1.container = some ct) := by
  constructor
  · intro ct hc
    constructor
    · rw [execute_command_snd, execute_command_body_state, hc]
    · intro ef hef
      rw [execute_command_snd] at hef
      rcases execute_command_body_trace_some w st c a cfg ct hc ef hef with
        ⟨sc, hin⟩ | hin
      · exact run_in_container_no_provision w st sc ef hin
      · exact get_repository_changes_no_provision w st ef hin
  · intro hc wd hwd img ct hb hr
    have hsetup := setup_container_ok w st c (some cfg.environment_vars)
      wd img ct hwd hb hr
    have hstate : (execute_command_body w st c a cfg).2.1 =
        (setup_container w st c (some cfg.environment_vars)).2.1 := by
      rw [execute_command_body_state, hc]
    constructor
    · obtain ⟨t, ht⟩ := execute_command_body_trace w st c a cfg
      rw [execute_command_snd, ht, hc]
      show Effect.buildImage ∈
        (setup_container w st c (some cfg.environment_vars)).2.2 ++ t
      rw [hsetup]
      simp
    · rw [execute_command_snd, hstate, hsetup]

/-- Claim C8 witness: a concrete state with a working directory and no
container provisions the container on execute. -/
theorem execute_command_provisions_once_witness :
    Effect.buildImage ∈
      (execute_command worldOK stWdOnly cmdEcho [] cfgEmpty).2.2 ∧
    (execute_command worldOK stWdOnly cmdEcho [] cfgEmpty).2.1.container =
      some ⟨"repopal-echo"⟩ :=
  (execute_command_provisions_once worldOK stWdOnly cmdEcho [] cfgEmpty).2
    rfl "/wd" rfl "img" ⟨"repopal-echo"⟩ rfl rfl

/-- Claim C9: in every state reachable from a fresh manager by any
sequence of operations (the five methods, plus the external
working-directory assignment), a set container field implies a set
working-directory field. -/
theorem manager_container_invariant (steps : List (World × Op)) :
    (runOps steps freshManager).container.isSome = true →
    (runOps steps freshManager).work_dir.isSome = true := by
  have main : ∀ (l : List (World × Op)) (st : EnvironmentManager),
      containerInv st → containerInv (runOps l st) := by
    intro l
    induction l with
    | nil => intro st h; exact h
    | cons p rest ih =>
      intro st h
      exact ih (applyOp p.1 st p.2) (applyOp_preserves_inv p.1 p.2 st h)
  exact main steps freshManager (fun hx => by simp [freshManager] at hx)

/-- Claim C9 witness: after setting the working directory and provisioning,
the reached state has a container and hence a working directory. -/
theorem manager_container_invariant_witness :
    (runOps demoSteps freshManager).work_dir.isSome = true :=
  manager_container_invariant demoSteps (by rfl)

/-- Claim C10: on the exception path of `execute_command` the exit code,
output and error fields are all `none`, the exception text appears in the
message and under the error data key, and the data mapping has no
command-name key; on the non-exception path the data maps the command name
key to the descriptor name. -/
theorem execute_command_exception_fields (w : World) (st : EnvironmentManager)
    (c : Command) (a : Args) (cfg : EnvironmentConfig) :
    (∀ e st1 tr, execute_command_body w st c a cfg = (.error e, st1, tr) →
      (execute_command w st c a cfg).1.exit_code = none ∧
      (execute_command w st c a cfg).1.output = none ∧
      (execute_command w st c a cfg).1.error = none ∧
      (execute_command w st c a cfg).1.message =
        "Failed to execute command: " ++ e.str ∧
      (execute_command w st c a cfg).1.data = [("error", e.str)] ∧
      ∀ v, ("command_name", v) ∉ (execute_command w st c a cfg).1.data) ∧
    (∀ r st1 tr, execute_command_body w st c a cfg = (.ok r, st1, tr) →
      r.data = [("command_name", c.metadata.name)]) := by
  constructor
  · intro e st1 tr hb
    rw [execute_command_of_body_error w st c a cfg e st1 tr hb]
    refine ⟨rfl, rfl, rfl, rfl, rfl, ?_⟩
    intro v hv
    have hv2 : ("command_name", v) ∈ [("error", Exn.str e)] := hv
    have h3 : "command_name" = "error" :=
      congrArg Prod.fst (List.mem_singleton.mp hv2)
    exact absurd h3 (by decide)
  · intro r st1 tr hb
    obtain ⟨sc, ec, out, hsc, hrun, hchg, hsucc, hec, hout, herr, hmsg,
      hdata, ht⟩ := execute_command_body_ok_shape w st c a cfg r st1 tr hb
    exact hdata

/-- Claim C10 witness: on the concrete exception path the optional fields
are unset, the message carries the exception text and the data holds only
the error key. -/
theorem execute_command_exception_fields_witness :
    (execute_command worldOK freshManager cmdEcho [] cfgEmpty).1.exit_code = none ∧
    (execute_command worldOK freshManager cmdEcho [] cfgEmpty).1.output = none ∧
    (execute_command worldOK freshManager cmdEcho [] cfgEmpty).1.error = none ∧
    (execute_command worldOK freshManager cmdEcho [] cfgEmpty).1.message =
      "Failed to execute command: " ++ Exn.str (.valueError
        "Working directory not set up. Call git_repo_manager.clone_repo first.") ∧
    (execute_command worldOK freshManager cmdEcho [] cfgEmpty).1.data =
      [("error", Exn.str (.valueError
        "Working directory not set up. Call git_repo_manager.clone_repo first."))] :=
  let h := (execute_command_exception_fields worldOK freshManager cmdEcho []
      cfgEmpty).1
    (.valueError
      "Working directory not set up. Call git_repo_manager.clone_repo first.")
    freshManager [] rfl
  ⟨h.1, h.2.1, h.2.2.1, h.2.2.2.1, h.2.2.2.2.1⟩

end Repopal
